import Mathlib

/-!
Shallow embedding of the whiteboard-to-prototype server (`server.js`) and
proofs about its specified behaviour.

The embedding models, faithfully to the source:
* the cost calculator `calculateCost` (server.js lines 209-219),
* the history store `loadHistory` / `addToHistory` (lines 77-112),
* the response sanitization in `buildPrototypeWithClaudeAgent` (lines 339-348),
* the `/upload` request handler (lines 424-511) together with the multer
  storage filename policy (lines 175-183).

JavaScript numbers are modelled as exact rationals; strings as Lean strings
(for the sanitizer, as lists of characters); the JSON documents the server
reads and writes as an inductive `Json` type; filesystem and network effects
as explicit inputs (the history file's state, the build outcome).
-/

namespace Whiteboard

/-! ### Configuration (server.js lines 24-33) -/

/-- Constant `CONFIG.COST_PER_MILLION_INPUT` (server.js line 31). -/
def COST_PER_MILLION_INPUT : ℚ := 15

/-- Constant `CONFIG.COST_PER_MILLION_OUTPUT` (server.js line 32). -/
def COST_PER_MILLION_OUTPUT : ℚ := 75

/-! ### Cost calculation (server.js lines 209-219) -/

/-- Pad a digit string on the left with zeros to six characters
(the fractional part of a `toFixed(6)` rendering). -/
def padSix (s : String) : String :=
  String.mk (List.replicate (6 - s.length) '0') ++ s

/-- JavaScript `Number.prototype.toFixed(6)` on idealized (rational,
non-negative) numbers: round to the nearest multiple of `10⁻⁶`, ties upward,
and render with exactly six digits after the decimal point. -/
def toFixed6 (q : ℚ) : String :=
  let n : ℤ := Rat.floor (q * 1000000 + 1 / 2)
  toString (n / 1000000) ++ "." ++ padSix (toString (n % 1000000).toNat)

/-- The record returned by `calculateCost` (server.js lines 214-218). -/
structure CostBreakdown where
  inputCost : String
  outputCost : String
  totalCost : String
deriving DecidableEq, Repr

/-- Expression `(inputTokens / 1000000) * CONFIG.COST_PER_MILLION_INPUT`
(server.js line 210). -/
def inputCostOf (inputTokens : ℕ) : ℚ :=
  (inputTokens : ℚ) / 1000000 * COST_PER_MILLION_INPUT

/-- Expression `(outputTokens / 1000000) * CONFIG.COST_PER_MILLION_OUTPUT`
(server.js line 211). -/
def outputCostOf (outputTokens : ℕ) : ℚ :=
  (outputTokens : ℚ) / 1000000 * COST_PER_MILLION_OUTPUT

/-- Function `calculateCost` (server.js lines 209-219): the three-part breakdown,
each component formatted with `toFixed(6)`. -/
def calculateCost (inputTokens outputTokens : ℕ) : CostBreakdown :=
  { inputCost := toFixed6 (inputCostOf inputTokens)
    outputCost := toFixed6 (outputCostOf outputTokens)
    totalCost := toFixed6 (inputCostOf inputTokens + outputCostOf outputTokens) }

/-! ### Session records (server.js lines 459-474) -/

/-- Token usage reported by the model call. -/
structure TokenUsage where
  input : ℕ
  output : ℕ
deriving DecidableEq, Repr

/-- One history entry, with the fields assembled at server.js lines 459-474. -/
structure Session where
  sessionId : String
  timestamp : String
  originalFilename : String
  customPrompt : String
  outputDir : String
  prototypeUrl : String
  thumbnailUrl : String
  tokens : TokenUsage
  cost : ℚ
  costs : CostBreakdown
  duration : ℚ
  model : String
  files : List String
  success : Bool
deriving DecidableEq, Repr

/-! ### History store (server.js lines 77-112)

`addToHistory` in the source loads the sessions list, unshifts the new
session, truncates to 100 entries, and writes the list back.  The in-memory
list of sessions is the state it transforms. -/

/-- The list transformation performed by `addToHistory`
(server.js lines 102-112): unshift, then keep only the first 100. -/
def addToHistory (session : Session) (sessions : List Session) : List Session :=
  let sessions' := session :: sessions
  if sessions'.length > 100 then sessions'.take 100 else sessions'

/-- Run a sequence of `addToHistory` appends starting from the empty
sessions list. -/
def runAppends (appends : List Session) : List Session :=
  appends.foldl (fun h s => addToHistory s h) []

/-! ### JSON documents and `loadHistory` (server.js lines 77-87) -/

/-- JSON values (numbers as exact rationals). -/
inductive Json where
  | null : Json
  | bool (b : Bool) : Json
  | num (q : ℚ) : Json
  | str (s : String) : Json
  | arr (elems : List Json) : Json
  | obj (fields : List (String × Json)) : Json
deriving Repr

/-- Field lookup in a JSON object (`none` on non-objects and absent keys). -/
def jsonLookup (key : String) : Json → Option Json
  | .obj fields => fields.lookup key
  | _ => none

/-- The state the history file can be in when `loadHistory` runs:
absent, unreadable (`fs.readFile` throws), not valid JSON
(`JSON.parse` throws), or readable with some parsed JSON document. -/
inductive HistoryFileState where
  | missing
  | unreadable
  | malformed
  | readable (doc : Json)

/-- Document `{ sessions: [] }`, the fallback `loadHistory` returns
(server.js line 86). -/
def emptyHistoryDoc : Json := .obj [("sessions", .arr [])]

/-- The `existsSync` / `readFile` / `JSON.parse` pipeline inside the `try`
block of `loadHistory` (server.js lines 78-82): `none` when the file is
absent, an `Except.error` when reading or parsing throws. -/
def readHistoryFile : HistoryFileState → Option (Except String Json)
  | .missing => none
  | .unreadable => some (.error "read failed")
  | .malformed => some (.error "parse failed")
  | .readable doc => some (.ok doc)

/-- Function `loadHistory` (server.js lines 77-87): returns the parsed document; on a
missing file, or when reading/parsing throws (the `catch` branch), returns
`{ sessions: [] }`. -/
def loadHistory (fs : HistoryFileState) : Json :=
  match readHistoryFile fs with
  | some (.ok doc) => doc
  | some (.error _) => emptyHistoryDoc
  | none => emptyHistoryDoc

/-! ### Response sanitization (server.js lines 339-348)

The model response is a JavaScript string; it is embedded as a list of
characters.  Line 343 runs two global regex replacements in sequence —
first every occurrence of the language-tagged fence opener with an optional
trailing newline, then every remaining triple-backtick with an optional
trailing newline — then trims surrounding whitespace; lines 346-348 prepend
a document-type declaration unless the text already starts with
`<!DOCTYPE` or `<html`.  A global regex replacement is a single
left-to-right scan: at each position the pattern either matches (greedily,
so a following newline is consumed when present) and scanning resumes after
the match, or the character is kept and scanning advances by one. -/

/-- The language-tagged fence marker's characters (three backticks then
`html`). -/
def fenceHtmlPat : List Char := ['\x60', '\x60', '\x60', 'h', 't', 'm', 'l']

/-- The generic fence marker's characters (three backticks). -/
def fencePat : List Char := ['\x60', '\x60', '\x60']

/-- Left-to-right scan of `.replace(/\x60\x60\x60html\n?/g, '')`
(server.js line 343, first replacement). -/
def stripHtmlFence : List Char → List Char
  | '\x60' :: '\x60' :: '\x60' :: 'h' :: 't' :: 'm' :: 'l' :: '\n' :: rest =>
    stripHtmlFence rest
  | '\x60' :: '\x60' :: '\x60' :: 'h' :: 't' :: 'm' :: 'l' :: rest =>
    stripHtmlFence rest
  | c :: rest => c :: stripHtmlFence rest
  | [] => []

/-- Left-to-right scan of `.replace(/\x60\x60\x60\n?/g, '')`
(server.js line 343, second replacement). -/
def stripFence : List Char → List Char
  | '\x60' :: '\x60' :: '\x60' :: '\n' :: rest => stripFence rest
  | '\x60' :: '\x60' :: '\x60' :: rest => stripFence rest
  | c :: rest => c :: stripFence rest
  | [] => []

/-- Whitespace recognized by JavaScript `String.prototype.trim` (the ASCII
part, which is all that the surrounding code can produce). -/
def isJsSpace (c : Char) : Bool :=
  c == ' ' || c == '\t' || c == '\n' || c == '\r' || c == '\x0b' || c == '\x0c'

/-- Function modelling `.trim()` (server.js line 343): drop whitespace from
both ends. -/
def trimChars (l : List Char) : List Char :=
  ((l.dropWhile isJsSpace).reverse.dropWhile isJsSpace).reverse

/-- Characters of the marker `<!DOCTYPE` tested at server.js line 346. -/
def doctypeMark : List Char := ['<', '!', 'D', 'O', 'C', 'T', 'Y', 'P', 'E']

/-- Characters of the marker `<html` tested at server.js line 346. -/
def htmlOpenMark : List Char := ['<', 'h', 't', 'm', 'l']

/-- Characters of the prepended line `<!DOCTYPE html>\n`
(server.js line 347). -/
def doctypeLine : List Char :=
  ['<', '!', 'D', 'O', 'C', 'T', 'Y', 'P', 'E', ' ', 'h', 't', 'm', 'l', '>', '\n']

/-- Conditional prepending of the document-type declaration
(server.js lines 346-348). -/
def ensureDoctype (l : List Char) : List Char :=
  if doctypeMark.isPrefixOf l || htmlOpenMark.isPrefixOf l then l
  else doctypeLine ++ l

/-- The whole response post-processing of `buildPrototypeWithClaudeAgent`
(server.js lines 339-348): strip fence markers, trim, ensure the
declaration.  The result is what is written to `index.html`. -/
def sanitizeHtml (response : List Char) : List Char :=
  ensureDoctype (trimChars (stripFence (stripHtmlFence response)))

/-- Occurrence test: does `pat` occur as a contiguous subsequence? -/
def containsSeq (pat : List Char) : List Char → Bool
  | [] => pat.isPrefixOf ([] : List Char)
  | c :: rest => pat.isPrefixOf (c :: rest) || containsSeq pat rest

/-- A body wrapped in a generic code fence (fence lines of their own, as a
model emits them). -/
def fenceGeneric (body : List Char) : List Char :=
  fencePat ++ '\n' :: (body ++ '\n' :: fencePat)

/-- A body wrapped in a language-tagged code fence. -/
def fenceTagged (body : List Char) : List Char :=
  fenceHtmlPat ++ '\n' :: (body ++ '\n' :: fencePat)

/-! ### Multer disk storage (server.js lines 175-195) -/

/-- Timestamp sanitization `new Date().toISOString().replace(/[:.]/g, '-')`
(server.js line 180). -/
def timestampSlug (ts : String) : String :=
  String.mk (ts.data.map (fun c => if c == ':' || c == '.' then '-' else c))

/-- Stored filename `whiteboard-<timestamp>.jpg` assigned by the multer
`storage.filename` callback (server.js lines 179-182). -/
def storedFilename (ts : String) : String :=
  "whiteboard-" ++ timestampSlug ts ++ ".jpg"

/-- The fields of a multer file object that the upload handler and storage
engine touch: `originalname` (the client's filename) and `filename` (the
server-assigned stored name). -/
structure UploadedFile where
  originalname : String
  filename : String
deriving DecidableEq, Repr

/-- Disk-storage processing of an incoming file: the stored `filename` is
derived from the upload timestamp (server.js lines 175-183), not from the
client's `originalname`. -/
def multerStore (originalname ts : String) : UploadedFile :=
  ⟨originalname, storedFilename ts⟩

/-! ### The upload route (server.js lines 424-511) -/

/-- Result record returned by `buildPrototypeWithClaudeAgent` on success
(server.js lines 368-384), restricted to the fields the upload handler
consumes. -/
structure BuildResult where
  outputDir : String
  prototypeUrl : String
  thumbnailUrl : String
  tokens : TokenUsage
  cost : ℚ
  costs : CostBreakdown
  duration : ℚ
  timestamp : String
  model : String
  files : List String
deriving DecidableEq, Repr

/-- Outcome of awaiting `buildPrototypeWithClaudeAgent`: a result record, or
a thrown error (an image-processing failure from `compressImage`, or an
external-call failure from `anthropic.messages.create`) carrying its
message. -/
inductive BuildOutcome where
  | ok (result : BuildResult)
  | err (message : String)

/-- The parts of the Express request the upload handler reads: `req.file`
and `req.body.prompt`. -/
structure UploadRequest where
  file : Option UploadedFile
  prompt : Option String

/-- An HTTP response: status code and JSON body. -/
structure HttpResponse where
  status : ℕ
  body : Json

/-- The history entry assembled on success (server.js lines 459-474); its
`originalFilename` field copies `req.file.filename`, the stored name. -/
def historyEntryOf (sessionId : String) (file : UploadedFile)
    (customPrompt : String) (result : BuildResult) : Session :=
  { sessionId := sessionId
    timestamp := result.timestamp
    originalFilename := file.filename
    customPrompt := customPrompt
    outputDir := result.outputDir
    prototypeUrl := result.prototypeUrl
    thumbnailUrl := result.thumbnailUrl
    tokens := result.tokens
    cost := result.cost
    costs := result.costs
    duration := result.duration
    model := result.model
    files := result.files
    success := true }

/-- Success response body (server.js lines 484-496). -/
def successBody (sessionId : String) (result : BuildResult) : Json :=
  .obj [("success", .bool true),
    ("sessionId", .str sessionId),
    ("message", .str "Prototype generated successfully!"),
    ("demoUrl", .str result.prototypeUrl),
    ("thumbnailUrl", .str result.thumbnailUrl),
    ("outputDir", .str result.outputDir),
    ("tokens", .obj [("input", .num (result.tokens.input : ℚ)),
      ("output", .num (result.tokens.output : ℚ))]),
    ("cost", .num result.cost),
    ("costs", .obj [("inputCost", .str result.costs.inputCost),
      ("outputCost", .str result.costs.outputCost),
      ("totalCost", .str result.costs.totalCost)]),
    ("duration", .num result.duration),
    ("files", .arr (result.files.map Json.str))]

/-- The `/upload` handler (server.js lines 424-511) as a function of the
generated session id, the request, the build outcome and the current
sessions list; it returns the HTTP response and the resulting sessions
list.  The missing-file branch (lines 433-439) answers 400 before any
processing; the `catch` branch (lines 498-510) answers 500 with
`error.message || 'Failed to generate prototype'`; the success branch
appends the assembled history entry and answers 200. -/
def uploadHandler (sessionId : String) (req : UploadRequest)
    (outcome : BuildOutcome) (sessions : List Session) :
    HttpResponse × List Session :=
  match req.file with
  | none =>
    (⟨400, .obj [("success", .bool false),
      ("error", .str "No file uploaded")]⟩, sessions)
  | some file =>
    match outcome with
    | .ok result =>
      let entry := historyEntryOf sessionId file (req.prompt.getD "") result
      (⟨200, successBody sessionId result⟩, addToHistory entry sessions)
    | .err message =>
      (⟨500, .obj [("success", .bool false),
        ("sessionId", .str sessionId),
        ("error", .str (if message = "" then "Failed to generate prototype"
          else message))]⟩, sessions)

/-- A concrete build result used to exercise the handler on a fully
specified input. -/
def sampleBuildResult : BuildResult :=
  { outputDir := "/app/__output__/prototype-2026-10-12T10-20-42-000Z"
    prototypeUrl := "/demos/prototype-2026-10-12T10-20-42-000Z/index.html"
    thumbnailUrl := "/demos/prototype-2026-10-12T10-20-42-000Z/thumbnail.jpg"
    tokens := ⟨1000, 2000⟩
    cost := 165 / 1000000
    costs := ⟨"0.015000", "0.150000", "0.165000"⟩
    duration := 12
    timestamp := "2026-10-12T10:20:42.000Z"
    model := "claude-opus-4-5-20251101"
    files := ["index.html"] }

/-! ### Helper lemmas about the history store -/

lemma addToHistory_length_le (s : Session) (h : List Session)
    (hle : h.length ≤ 100) : (addToHistory s h).length ≤ 100 := by
  unfold addToHistory
  by_cases hlen : (s :: h).length > 100
  · rw [if_pos hlen, List.length_take]
    exact Nat.min_le_left 100 (s :: h).length
  · rw [if_neg hlen]
    simp only [List.length_cons] at hlen ⊢
    omega

lemma addToHistory_head_tail (s : Session) (h : List Session)
    (hle : h.length ≤ 100) :
    (addToHistory s h).head? = some s ∧ (addToHistory s h).tail = h.take 99 := by
  unfold addToHistory
  by_cases hlen : (s :: h).length > 100
  · rw [if_pos hlen]
    have h100 : (100 : ℕ) = 99 + 1 := rfl
    rw [h100, List.take_succ_cons]
    exact ⟨rfl, rfl⟩
  · rw [if_neg hlen]
    simp only [List.length_cons] at hlen
    have h99 : h.length ≤ 99 := by omega
    exact ⟨rfl, (List.take_of_length_le h99).symm⟩

lemma addToHistory_head (s : Session) (h : List Session) :
    (addToHistory s h).head? = some s := by
  unfold addToHistory
  by_cases hlen : (s :: h).length > 100
  · rw [if_pos hlen]
    rfl
  · rw [if_neg hlen]
    rfl

lemma runAppends_length_le (appends : List Session) :
    (runAppends appends).length ≤ 100 := by
  suffices hgen : ∀ (l acc : List Session), acc.length ≤ 100 →
      (l.foldl (fun h s => addToHistory s h) acc).length ≤ 100 by
    exact hgen appends [] (by simp)
  intro l
  induction l with
  | nil => intro acc hacc; exact hacc
  | cons x xs ih =>
    intro acc hacc
    exact ih _ (addToHistory_length_le x acc hacc)

/-! ### Helper lemmas about the sanitizer -/

lemma stripFence_step (c : Char) (rest : List Char)
    (h : fencePat.isPrefixOf (c :: rest) = false) :
    stripFence (c :: rest) = c :: stripFence rest := by
  rw [stripFence.eq_def]
  split
  · rename_i r heq
    injection heq with h1 h2
    subst h1; subst h2
    simp [fencePat, List.isPrefixOf] at h
  · rename_i r heq
    injection heq with h1 h2
    subst h1; subst h2
    simp [fencePat, List.isPrefixOf] at h
  · rename_i x c' r' hn1 hn2 heq
    injection heq with e1 e2
    subst e1; subst e2
    rfl
  · rename_i heq
    exact absurd heq (List.cons_ne_nil c rest)

lemma stripFence_match (rest : List Char) (hnl : rest.head? ≠ some '\n') :
    stripFence ('\x60' :: '\x60' :: '\x60' :: rest) = stripFence rest := by
  rw [stripFence.eq_def]
  split
  · rename_i r heq
    injection heq with h1 h2
    injection h2 with h3 h4
    injection h4 with h5 h6
    subst h6
    simp at hnl
  · rename_i r heq
    injection heq with h1 h2
    injection h2 with h3 h4
    injection h4 with h5 h6
    subst h6
    rfl
  · rename_i x c' r' hn1 hn2 heq
    exfalso
    injection heq with e1 e2
    exact hn2 rest e1.symm e2.symm
  · rename_i heq
    exact absurd heq (by simp)

lemma stripHtmlFence_step (c : Char) (rest : List Char)
    (h : fenceHtmlPat.isPrefixOf (c :: rest) = false) :
    stripHtmlFence (c :: rest) = c :: stripHtmlFence rest := by
  rw [stripHtmlFence.eq_def]
  split
  · rename_i r heq
    injection heq with h1 h2
    subst h1; subst h2
    simp [fenceHtmlPat, List.isPrefixOf] at h
  · rename_i r heq
    injection heq with h1 h2
    subst h1; subst h2
    simp [fenceHtmlPat, List.isPrefixOf] at h
  · rename_i x c' r' hn1 hn2 heq
    injection heq with e1 e2
    subst e1; subst e2
    rfl
  · rename_i heq
    exact absurd heq (List.cons_ne_nil c rest)

lemma containsSeq_tail {pat : List Char} {c : Char} {rest : List Char}
    (h : containsSeq pat (c :: rest) = false) : containsSeq pat rest = false := by
  simp [containsSeq] at h
  exact h.2

lemma containsSeq_head {pat : List Char} {c : Char} {rest : List Char}
    (h : containsSeq pat (c :: rest) = false) :
    pat.isPrefixOf (c :: rest) = false := by
  simp [containsSeq] at h
  exact h.1

lemma noHtmlPrefAppend (t : List Char) (h : containsSeq fencePat t = false) :
    fenceHtmlPat.isPrefixOf (t ++ '\n' :: fencePat) = false := by
  match t with
  | [] => decide
  | [a] => simp [fenceHtmlPat, List.isPrefixOf]
  | [a, b] => simp [fenceHtmlPat, List.isPrefixOf]
  | a :: b :: c :: t' =>
    have hp := containsSeq_head h
    cases h1 : ('\x60' == a) with
    | false => simp [fenceHtmlPat, List.isPrefixOf, h1]
    | true =>
      cases h2 : ('\x60' == b) with
      | false => simp [fenceHtmlPat, List.isPrefixOf, h1, h2]
      | true =>
        cases h3 : ('\x60' == c) with
        | false => simp [fenceHtmlPat, List.isPrefixOf, h1, h2, h3]
        | true => simp [fencePat, List.isPrefixOf, h1, h2, h3] at hp

lemma noFencePrefAppend (t : List Char) (h : containsSeq fencePat t = false) :
    fencePat.isPrefixOf (t ++ '\n' :: fencePat) = false := by
  match t with
  | [] => decide
  | [a] => simp [fencePat, List.isPrefixOf]
  | [a, b] => simp [fencePat, List.isPrefixOf]
  | a :: b :: c :: t' =>
    have hp := containsSeq_head h
    cases h1 : ('\x60' == a) with
    | false => simp [fencePat, List.isPrefixOf, h1]
    | true =>
      cases h2 : ('\x60' == b) with
      | false => simp [fencePat, List.isPrefixOf, h1, h2]
      | true =>
        cases h3 : ('\x60' == c) with
        | false => simp [fencePat, List.isPrefixOf, h1, h2, h3]
        | true => simp [fencePat, List.isPrefixOf, h1, h2, h3] at hp

lemma stripHtmlFence_append (t : List Char)
    (h : containsSeq fencePat t = false) :
    stripHtmlFence (t ++ '\n' :: fencePat) = t ++ '\n' :: fencePat := by
  induction t with
  | nil => decide
  | cons c t' ih =>
    have hstep := stripHtmlFence_step c (t' ++ '\n' :: fencePat)
      (noHtmlPrefAppend (c :: t') h)
    rw [List.cons_append, hstep, ih (containsSeq_tail h)]

lemma stripFence_append (t : List Char)
    (h : containsSeq fencePat t = false) :
    stripFence (t ++ '\n' :: fencePat) = t ++ ['\n'] := by
  induction t with
  | nil => decide
  | cons c t' ih =>
    have hstep := stripFence_step c (t' ++ '\n' :: fencePat)
      (noFencePrefAppend (c :: t') h)
    rw [List.cons_append, hstep, ih (containsSeq_tail h)]
    rfl

lemma containsSeq_iff_within {pat l : List Char} :
    containsSeq pat l = true ↔ pat <:+: l := by
  induction l with
  | nil =>
    simp only [containsSeq, List.isPrefixOf_iff_prefix]
    rw [List.prefix_nil, List.infix_nil]
  | cons c r ih =>
    simp only [containsSeq, Bool.or_eq_true, List.isPrefixOf_iff_prefix, ih]
    rw [List.infix_cons_iff]

lemma containsSeq_false_mono {pat l₁ l₂ : List Char} (hsub : l₁ <:+: l₂)
    (h : containsSeq pat l₂ = false) : containsSeq pat l₁ = false := by
  cases hb : containsSeq pat l₁ with
  | false => rfl
  | true =>
    have hinf := (containsSeq_iff_within.mp hb).trans hsub
    exact absurd (containsSeq_iff_within.mpr hinf) (by simp [h])

lemma within_of_pref {l₁ l₂ : List Char} (h : l₁ <+: l₂) : l₁ <:+: l₂ := by
  obtain ⟨t, ht⟩ := h
  exact ⟨[], t, by simpa using ht⟩

lemma within_of_suff {l₁ l₂ : List Char} (h : l₁ <:+ l₂) : l₁ <:+: l₂ := by
  obtain ⟨s, hs⟩ := h
  exact ⟨s, [], by simpa using hs⟩

lemma trimChars_within (l : List Char) : trimChars l <:+: l := by
  unfold trimChars
  have h1 : l.dropWhile isJsSpace <:+ l := List.dropWhile_suffix _
  have h2 : (l.dropWhile isJsSpace).reverse.dropWhile isJsSpace <:+
      (l.dropWhile isJsSpace).reverse := List.dropWhile_suffix _
  have h3 : ((l.dropWhile isJsSpace).reverse.dropWhile isJsSpace).reverse <+:
      l.dropWhile isJsSpace := by
    rw [← List.reverse_suffix]
    simpa using h2
  exact (within_of_pref h3).trans (within_of_suff h1)

lemma singleTickPref (r : List Char) (h : ['\x60'].isPrefixOf r = false) :
    ['\x60'].isPrefixOf (stripFence r) = false := by
  rcases r with _ | ⟨d, r'⟩
  · decide
  · have hd : ('\x60' == d) = false := by simpa [List.isPrefixOf] using h
    have hstep : fencePat.isPrefixOf (d :: r') = false := by
      simp [fencePat, List.isPrefixOf, hd]
    rw [stripFence_step d r' hstep]
    simp [List.isPrefixOf, hd]

lemma doubleTickPref (r : List Char) (h : ['\x60', '\x60'].isPrefixOf r = false) :
    ['\x60', '\x60'].isPrefixOf (stripFence r) = false := by
  rcases r with _ | ⟨d, r'⟩
  · decide
  · by_cases hd : ('\x60' == d) = true
    · have hd' : d = '\x60' := (beq_iff_eq.mp hd).symm
      subst hd'
      have h1 : ['\x60'].isPrefixOf r' = false := by
        simpa [List.isPrefixOf] using h
      have hstep : fencePat.isPrefixOf ('\x60' :: r') = false := by
        rcases r' with _ | ⟨e, r''⟩
        · decide
        · have he : ('\x60' == e) = false := by
            simpa [List.isPrefixOf] using h1
          simp [fencePat, List.isPrefixOf, he]
      rw [stripFence_step _ _ hstep]
      have hs := singleTickPref r' h1
      simp [List.isPrefixOf]
      simpa [List.isPrefixOf] using hs
    · have hd' : ('\x60' == d) = false := by simpa using hd
      have hstep : fencePat.isPrefixOf (d :: r') = false := by
        simp [fencePat, List.isPrefixOf, hd']
      rw [stripFence_step d r' hstep]
      simp [List.isPrefixOf, hd']

lemma stripFence_no_fence_aux :
    ∀ (n : ℕ) (l : List Char), l.length ≤ n →
      containsSeq fencePat (stripFence l) = false := by
  intro n
  induction n with
  | zero =>
    intro l hl
    rcases l with _ | ⟨c, r⟩
    · decide
    · simp at hl
  | succ n ih =>
    intro l hl
    rcases l with _ | ⟨c, rest⟩
    · decide
    · by_cases hp : fencePat.isPrefixOf (c :: rest) = true
      · rcases rest with _ | ⟨b, rest2⟩
        · simp [fencePat, List.isPrefixOf] at hp
        · rcases rest2 with _ | ⟨d, r⟩
          · simp [fencePat, List.isPrefixOf] at hp
          · simp only [fencePat, List.isPrefixOf, Bool.and_eq_true, beq_iff_eq,
              Bool.and_true] at hp
            obtain ⟨hc, hb, hd⟩ := hp
            subst hc; subst hb; subst hd
            rcases r with _ | ⟨e, r2⟩
            · decide
            · by_cases he : e = '\n'
              · subst he
                show containsSeq fencePat (stripFence r2) = false
                apply ih
                simp at hl
                omega
              · rw [stripFence_match (e :: r2) (by simp [he])]
                apply ih
                simp at hl ⊢
                omega
      · have hp' : fencePat.isPrefixOf (c :: rest) = false := by
          simp only [Bool.not_eq_true] at hp
          exact hp
        rw [stripFence_step c rest hp']
        have htail : containsSeq fencePat (stripFence rest) = false := by
          apply ih
          simp at hl
          omega
        simp only [containsSeq, Bool.or_eq_false_iff]
        refine ⟨?_, htail⟩
        by_cases hc : ('\x60' == c) = true
        · have hc' : c = '\x60' := (beq_iff_eq.mp hc).symm
          subst hc'
          have h2 : ['\x60', '\x60'].isPrefixOf rest = false := by
            simpa [fencePat, List.isPrefixOf] using hp'
          have hdt := doubleTickPref rest h2
          simpa [fencePat, List.isPrefixOf] using hdt
        · have hc' : ('\x60' == c) = false := by simpa using hc
          simp [fencePat, List.isPrefixOf, hc']

lemma stripFence_no_fence (l : List Char) :
    containsSeq fencePat (stripFence l) = false :=
  stripFence_no_fence_aux l.length l le_rfl

lemma noFence_doctype_append (l : List Char)
    (h : containsSeq fencePat l = false) :
    containsSeq fencePat (doctypeLine ++ l) = false := by
  simpa [doctypeLine, containsSeq, fencePat, List.isPrefixOf] using h

/-! ### Claim theorems: history store and cost calculator -/

/-- C1: starting from an empty history, any sequence of appends leaves at
most 100 sessions, and appending one more session puts it at index 0 with
the previously stored sessions following in order, truncated to the first
(most recent) 99 — the oldest dropped once the cap is exceeded. -/
theorem history_capped_most_recent_first (appends : List Session) :
    (runAppends appends).length ≤ 100 ∧
    ∀ s : Session,
      (addToHistory s (runAppends appends)).head? = some s ∧
      (addToHistory s (runAppends appends)).tail = (runAppends appends).take 99 :=
  ⟨runAppends_length_le appends,
   fun s => addToHistory_head_tail s _ (runAppends_length_le appends)⟩

/-- C4: when the history file is missing, unreadable, or fails to parse,
`loadHistory` returns the document with an empty sessions list (and, being a
total function, raises no error). -/
theorem loadHistory_failure_empty :
    loadHistory .missing = emptyHistoryDoc ∧
    loadHistory .unreadable = emptyHistoryDoc ∧
    loadHistory .malformed = emptyHistoryDoc ∧
    jsonLookup "sessions" emptyHistoryDoc = some (Json.arr []) :=
  ⟨rfl, rfl, rfl, rfl⟩

lemma toFixed6_eq (q : ℚ) (n : ℤ) (h : ⌊q * 1000000 + 1 / 2⌋ = n) :
    toFixed6 q
      = toString (n / 1000000) ++ "." ++ padSix (toString (n % 1000000).toNat) := by
  unfold toFixed6
  rw [show Rat.floor (q * 1000000 + 1 / 2) = ⌊q * 1000000 + 1 / 2⌋ from rfl, h]

lemma toFixed6_zero : toFixed6 0 = "0.000000" := by
  rw [toFixed6_eq 0 0 (by norm_num)]; decide

lemma toFixed6_fifteen : toFixed6 15 = "15.000000" := by
  rw [toFixed6_eq 15 15000000 (by norm_num)]; decide

lemma toFixed6_seventyfive : toFixed6 75 = "75.000000" := by
  rw [toFixed6_eq 75 75000000 (by norm_num)]; decide

lemma inputCostOf_zero : inputCostOf 0 = 0 := by
  norm_num [inputCostOf]

lemma outputCostOf_zero : outputCostOf 0 = 0 := by
  norm_num [outputCostOf]

lemma inputCostOf_million : inputCostOf 1000000 = 15 := by
  norm_num [inputCostOf, COST_PER_MILLION_INPUT]

lemma outputCostOf_million : outputCostOf 1000000 = 75 := by
  norm_num [outputCostOf, COST_PER_MILLION_OUTPUT]

/-- C5: `calculateCost 0 0` is all zeros; `calculateCost 1000000 0` shows the
configured per-million input price (15) to six decimals; `calculateCost 0
1000000` shows the configured per-million output price (75) to six
decimals. -/
theorem calculateCost_base_values :
    calculateCost 0 0 = ⟨"0.000000", "0.000000", "0.000000"⟩ ∧
    calculateCost 1000000 0 = ⟨"15.000000", "0.000000", "15.000000"⟩ ∧
    calculateCost 0 1000000 = ⟨"0.000000", "75.000000", "75.000000"⟩ := by
  refine ⟨?_, ?_, ?_⟩ <;>
    simp only [calculateCost, inputCostOf_zero, outputCostOf_zero,
      inputCostOf_million, outputCostOf_million, add_zero, zero_add,
      toFixed6_zero, toFixed6_fifteen, toFixed6_seventyfive]

/-- C6: the input-cost component of `calculateCost` is additive in the input
token count: the input cost of `a + b` tokens is the sum of the input costs
of `a` and of `b` tokens, and the formatted `inputCost` field of
`calculateCost (a+b) c` renders exactly that sum. -/
theorem calculateCost_input_additive (a b c : ℕ) :
    inputCostOf (a + b) = inputCostOf a + inputCostOf b ∧
    (calculateCost (a + b) c).inputCost = toFixed6 (inputCostOf a + inputCostOf b) := by
  have hadd : inputCostOf (a + b) = inputCostOf a + inputCostOf b := by
    unfold inputCostOf
    push_cast
    ring
  exact ⟨hadd, by rw [show (calculateCost (a + b) c).inputCost
    = toFixed6 (inputCostOf (a + b)) from rfl, hadd]⟩

/-! ### Claim theorems: sanitizer -/

/-- C3 counterexample: a model response that already starts with `<html`
(but not with the document-type declaration) is left unchanged — no
declaration is prepended, so the artifact does not begin with it. -/
theorem doctype_not_prepended_for_html_start :
    sanitizeHtml "<html><body>hi</body></html>".data
      = "<html><body>hi</body></html>".data ∧
    doctypeMark.isPrefixOf
      (sanitizeHtml "<html><body>hi</body></html>".data) = false := by
  constructor <;> decide

/-- C3 amended: the sanitized artifact text begins with the document-type
declaration unless the stripped response already begins with `<html`, in
which case it is left as it is: every sanitized output starts with
`<!DOCTYPE` or with `<html`. -/
theorem sanitize_starts_doctype_or_html (response : List Char) :
    (doctypeMark.isPrefixOf (sanitizeHtml response)
      || htmlOpenMark.isPrefixOf (sanitizeHtml response)) = true := by
  unfold sanitizeHtml ensureDoctype
  split
  · rename_i hcond
    exact hcond
  · have hpre : doctypeMark.isPrefixOf
        (doctypeLine ++ trimChars (stripFence (stripHtmlFence response)))
        = true := by
      simp [doctypeMark, doctypeLine, List.isPrefixOf]
    simp [hpre]

/-- C7: for a body with no code-fence markers of its own, the sanitized
artifact text is identical whether the model wrapped it in a generic code
fence or in a language-tagged one. -/
theorem sanitize_fence_agnostic (body : List Char)
    (h : containsSeq fencePat body = false) :
    sanitizeHtml (fenceGeneric body) = sanitizeHtml (fenceTagged body) := by
  have htag : stripHtmlFence (fenceTagged body) = body ++ '\n' :: fencePat := by
    rw [show stripHtmlFence (fenceTagged body)
        = stripHtmlFence (body ++ '\n' :: fencePat) from rfl,
      stripHtmlFence_append body h]
  have hgen : stripHtmlFence (fenceGeneric body)
      = '\x60' :: '\x60' :: '\x60' :: '\n' :: (body ++ '\n' :: fencePat) := by
    show stripHtmlFence
      ('\x60' :: '\x60' :: '\x60' :: '\n' :: (body ++ '\n' :: fencePat)) = _
    rw [stripHtmlFence_step _ _ (by simp [fenceHtmlPat, List.isPrefixOf]),
      stripHtmlFence_step _ _ (by simp [fenceHtmlPat, List.isPrefixOf]),
      stripHtmlFence_step _ _ (by simp [fenceHtmlPat, List.isPrefixOf]),
      stripHtmlFence_step _ _ (by simp [fenceHtmlPat, List.isPrefixOf]),
      stripHtmlFence_append body h]
  unfold sanitizeHtml
  rw [htag, hgen]
  rw [show stripFence
      ('\x60' :: '\x60' :: '\x60' :: '\n' :: (body ++ '\n' :: fencePat))
      = stripFence (body ++ '\n' :: fencePat) from rfl]

/-- C7 witness: the two fencings of a concrete fence-free body sanitize to
the same artifact text. -/
theorem sanitize_fence_agnostic_witness :
    containsSeq fencePat "<p>hi</p>".data = false ∧
    sanitizeHtml (fenceGeneric "<p>hi</p>".data)
      = sanitizeHtml (fenceTagged "<p>hi</p>".data) :=
  ⟨by decide, sanitize_fence_agnostic "<p>hi</p>".data (by decide)⟩

/-- C10: the sanitizer removes every occurrence of the fence markers, not
only a surrounding fence — no sanitized artifact text contains a
triple-backtick sequence (nor, a fortiori, a tagged fence marker),
whatever the model response was. -/
theorem sanitize_removes_all_fences (response : List Char) :
    containsSeq fencePat (sanitizeHtml response) = false ∧
    containsSeq fenceHtmlPat (sanitizeHtml response) = false := by
  have h1 : containsSeq fencePat
      (trimChars (stripFence (stripHtmlFence response))) = false :=
    containsSeq_false_mono (trimChars_within _) (stripFence_no_fence _)
  have h2 : containsSeq fencePat (sanitizeHtml response) = false := by
    unfold sanitizeHtml ensureDoctype
    split
    · exact h1
    · exact noFence_doctype_append _ h1
  refine ⟨h2, ?_⟩
  cases hb : containsSeq fenceHtmlPat (sanitizeHtml response) with
  | false => rfl
  | true =>
    have hinf : fenceHtmlPat <:+: sanitizeHtml response :=
      containsSeq_iff_within.mp hb
    have hpre : fencePat <+: fenceHtmlPat := ⟨['h', 't', 'm', 'l'], rfl⟩
    have hall : fencePat <:+: sanitizeHtml response :=
      (within_of_pref hpre).trans hinf
    exact absurd (containsSeq_iff_within.mpr hall) (by simp [h2])

/-! ### Claim theorems: the upload route -/

/-- C2: when the build fails (image-processing or external-call error,
both surfacing as a thrown error), the sessions list is unchanged and the
request is answered with a 500 error response whose `success` field is
false; when no file was uploaded the sessions list is also unchanged; and
on a successful build the handler appends exactly the assembled history
entry — so a session reaches the history exactly when the build
succeeds. -/
theorem upload_failure_writes_no_history (sessionId : String)
    (file : UploadedFile) (prompt : Option String) (sessions : List Session)
    (message : String) (outcome : BuildOutcome) (result : BuildResult) :
    (uploadHandler sessionId ⟨some file, prompt⟩ (.err message) sessions).2
      = sessions ∧
    (uploadHandler sessionId ⟨some file, prompt⟩
        (.err message) sessions).1.status = 500 ∧
    jsonLookup "success"
      (uploadHandler sessionId ⟨some file, prompt⟩
        (.err message) sessions).1.body = some (.bool false) ∧
    (uploadHandler sessionId ⟨none, prompt⟩ outcome sessions).2 = sessions ∧
    (uploadHandler sessionId ⟨some file, prompt⟩ (.ok result) sessions).2
      = addToHistory (historyEntryOf sessionId file (prompt.getD "") result)
          sessions :=
  ⟨rfl, rfl, rfl, rfl, rfl⟩

/-- C8 counterexample: the missing-file rejection answers 400 with a body
that carries no `sessionId` field, contradicting the claim that every
failure response includes the generated session identifier. -/
theorem upload_nofile_body_has_no_sessionId :
    (uploadHandler "a1b2" ⟨none, none⟩ (.err "boom") []).1.status = 400 ∧
    jsonLookup "sessionId"
      (uploadHandler "a1b2" ⟨none, none⟩ (.err "boom") []).1.body = none :=
  ⟨rfl, rfl⟩

/-- C8 amended: every failing upload is answered with `success:false`, an
`error` field and a non-2xx status — 500 for build failures (where the body
also carries the generated `sessionId`), 400 for the missing-file rejection
(whose body has no `sessionId` field). -/
theorem upload_failure_response_shape (sessionId : String)
    (file : UploadedFile) (prompt : Option String) (sessions : List Session)
    (message : String) (outcome : BuildOutcome) :
    (uploadHandler sessionId ⟨some file, prompt⟩
        (.err message) sessions).1.status = 500 ∧
    300 ≤ (uploadHandler sessionId ⟨some file, prompt⟩
        (.err message) sessions).1.status ∧
    jsonLookup "success"
      (uploadHandler sessionId ⟨some file, prompt⟩
        (.err message) sessions).1.body = some (.bool false) ∧
    jsonLookup "sessionId"
      (uploadHandler sessionId ⟨some file, prompt⟩
        (.err message) sessions).1.body = some (.str sessionId) ∧
    (jsonLookup "error"
      (uploadHandler sessionId ⟨some file, prompt⟩
        (.err message) sessions).1.body).isSome = true ∧
    (uploadHandler sessionId ⟨none, prompt⟩ outcome sessions).1.status = 400 ∧
    300 ≤ (uploadHandler sessionId ⟨none, prompt⟩ outcome sessions).1.status ∧
    jsonLookup "success"
      (uploadHandler sessionId ⟨none, prompt⟩ outcome sessions).1.body
      = some (.bool false) ∧
    jsonLookup "error"
      (uploadHandler sessionId ⟨none, prompt⟩ outcome sessions).1.body
      = some (.str "No file uploaded") ∧
    jsonLookup "sessionId"
      (uploadHandler sessionId ⟨none, prompt⟩ outcome sessions).1.body
      = none :=
  ⟨rfl, by show (300 : ℕ) ≤ 500; decide, rfl, rfl, rfl,
   rfl, by show (300 : ℕ) ≤ 400; decide, rfl, rfl, rfl⟩

/-- C9 counterexample: for an upload whose client filename is
`sketch.png`, the recorded `originalFilename` is the server-assigned
stored name `whiteboard-<timestamp>.jpg`, not the name received from the
client. -/
theorem history_entry_filename_not_client_name :
    (((uploadHandler "sid-1"
        ⟨some (multerStore "sketch.png" "2026-10-12T10:20:30.456Z"),
          some "dark mode"⟩
        (.ok sampleBuildResult) []).2).head?.map Session.originalFilename)
      = some "whiteboard-2026-10-12T10-20-30-456Z.jpg" ∧
    (((uploadHandler "sid-1"
        ⟨some (multerStore "sketch.png" "2026-10-12T10:20:30.456Z"),
          some "dark mode"⟩
        (.ok sampleBuildResult) []).2).head?.map Session.originalFilename)
      ≠ some "sketch.png" := by
  constructor
  · rfl
  · decide

/-- C9 amended: for every successful upload, the history entry's
`originalFilename` is the server-assigned stored filename derived from the
upload timestamp (not the client's original name), and `customPrompt` is
the submitted instruction text, empty when absent. -/
theorem history_entry_inputs (sessionId originalname ts : String)
    (prompt : Option String) (result : BuildResult) (sessions : List Session) :
    ∃ entry : Session,
      ((uploadHandler sessionId ⟨some (multerStore originalname ts), prompt⟩
          (.ok result) sessions).2).head? = some entry ∧
      entry.originalFilename = storedFilename ts ∧
      entry.customPrompt = prompt.getD "" :=
  ⟨historyEntryOf sessionId (multerStore originalname ts) (prompt.getD "") result,
   addToHistory_head _ _, rfl, rfl⟩

end Whiteboard
